import Mathlib

/-!
# Verification of the nhmesh-producer core

Shallow embedding, in Lean 4, of the core data structures and operations of
the `nhmesh-producer` bridge:

* `DeduplicatedQueue` (utils/deduplicated_queue.py),
* `TracerouteManager` (utils/traceroute_manager.py): backoff computation,
  failure/success accounting, persistence save/load, the worker loop and
  the global-cooldown discipline,
* `ConnectionManager.reconnect` (utils/connection_manager.py),
* the packet pipeline of `MeshtasticMQTTHandler` (producer.py):
  `_update_cache_from_packet`, `onReceive`, `publish_dict_to_mqtt`.

Modelling conventions:

* Python `dict`s keyed by strings are association lists
  (`List (String × _)`) with insertion-order-preserving update (`mset`),
  deletion (`merase`) and lookup (`mlookup`), matching CPython semantics
  of unique keys and stable ordering.
* Wall-clock timestamps (`time.time()`) are natural numbers; each atomic
  step of a worker is stamped with one instant.
* Calls into external libraries (meshtastic protobuf parsing, the radio
  interface, the MQTT client) are modelled by oracle parameters giving the
  outcome the library call would return; the repository's own control flow
  around those calls is translated literally.
-/

namespace NhmeshProducer

abbrev NodeId := String

/-- Lookup in an association list, Python `d.get(k)` / `d[k]`. -/
def mlookup {α : Type} : List (String × α) → String → Option α
  | [], _ => none
  | (k', v) :: rest, k => if k' = k then some v else mlookup rest k

/-- Assignment `d[k] = v` on a Python dict: overwrite in place if the key
exists (keeping its position), append otherwise. -/
def mset {α : Type} : List (String × α) → String → α → List (String × α)
  | [], k, v => [(k, v)]
  | (k', v') :: rest, k, v =>
    if k' = k then (k, v) :: rest else (k', v') :: mset rest k v

/-- Deletion `del d[k]` (a no-op when the key is absent, mirroring the
guarded deletes in the source). -/
def merase {α : Type} : List (String × α) → String → List (String × α)
  | [], _ => []
  | (k', v) :: rest, k =>
    if k' = k then merase rest k else (k', v) :: merase rest k

theorem mlookup_mset_self {α : Type} (m : List (String × α)) (k : String) (v : α) :
    mlookup (mset m k v) k = some v := by
  induction m with
  | nil => simp [mset, mlookup]
  | cons p rest ih =>
    by_cases h : p.1 = k
    · simp [mset, h, mlookup]
    · simp [mset, h, mlookup, ih]

theorem mlookup_mset_ne {α : Type} (m : List (String × α)) (k k' : String) (v : α)
    (h : k ≠ k') : mlookup (mset m k v) k' = mlookup m k' := by
  induction m with
  | nil => simp [mset, mlookup, h]
  | cons p rest ih =>
    by_cases hp : p.1 = k
    · simp [mset, hp, mlookup, h]
    · simp only [mset, if_neg hp]
      by_cases hp' : p.1 = k'
      · simp [mlookup, hp']
      · simp [mlookup, hp', ih]

theorem mlookup_merase {α : Type} (m : List (String × α)) (k k' : String) :
    mlookup (merase m k) k' = if k' = k then none else mlookup m k' := by
  by_cases hk : k' = k
  · subst hk
    rw [if_pos rfl]
    induction m with
    | nil => simp [merase, mlookup]
    | cons p rest ih =>
      obtain ⟨pk, pv⟩ := p
      by_cases hp : pk = k'
      · simpa [merase, hp] using ih
      · simpa [merase, hp, mlookup] using ih
  · rw [if_neg hk]
    induction m with
    | nil => simp [merase, mlookup]
    | cons p rest ih =>
      obtain ⟨pk, pv⟩ := p
      by_cases hp : pk = k
      · simp only [merase, if_pos hp, mlookup, ih]
        rw [if_neg (fun h : pk = k' => hk (h.symm.trans hp))]
      · simp [merase, hp, mlookup, ih]

/-! ## DeduplicatedQueue (utils/deduplicated_queue.py)

`DeduplicatedQueue[T]` holds an inner FIFO `_queue` and a set
`_queued_items` of keys of the items currently queued; `put` enqueues only
when the key is not already present, `get` pops FIFO and discards the
popped item's key. -/

structure DQ (T : Type) (K : Type) where
  items : List T
  queuedKeys : List K
deriving DecidableEq

/-- `put(item)`: under the lock, if `key ∉ _queued_items` enqueue the item,
add the key and return `True`; else return `False` leaving the queue
unchanged. -/
def dqPut {T K : Type} [DecidableEq K] (key : T → K) (q : DQ T K) (item : T) :
    DQ T K × Bool :=
  let k := key item
  if k ∈ q.queuedKeys then (q, false)
  else ({ items := q.items ++ [item], queuedKeys := k :: q.queuedKeys }, true)

/-- `get(...)`: pop the FIFO head (`none` models the Empty/timeout
exception of the inner `queue.Queue`) and discard its key from
`_queued_items`. -/
def dqGet {T K : Type} [DecidableEq K] (key : T → K) (q : DQ T K) :
    Option (T × DQ T K) :=
  match q.items with
  | [] => none
  | item :: rest =>
    some (item, { items := rest, queuedKeys := q.queuedKeys.erase (key item) })

/-- States of a `DeduplicatedQueue` reachable from the freshly constructed
(empty) queue through `put` and `get`. -/
inductive DQReachable {T K : Type} [DecidableEq K] (key : T → K) : DQ T K → Prop
  | init : DQReachable key ⟨[], []⟩
  | put (q : DQ T K) (item : T) :
      DQReachable key q → DQReachable key (dqPut key q item).1
  | get (q : DQ T K) (item : T) (q' : DQ T K) :
      DQReachable key q → dqGet key q = some (item, q') → DQReachable key q'

/-- Structural invariant of reachable queues: `_queued_items` is exactly
the key set of the queued items, and neither carries duplicates. -/
theorem dq_invariant {T K : Type} [DecidableEq K] (key : T → K) (q : DQ T K)
    (h : DQReachable key q) :
    (∀ k, k ∈ q.queuedKeys ↔ k ∈ q.items.map key) ∧
      (q.items.map key).Nodup ∧ q.queuedKeys.Nodup := by
  induction h with
  | init => simp [DQ.items, DQ.queuedKeys]
  | put q item _ ih =>
    obtain ⟨hmem, hnodupI, hnodupK⟩ := ih
    by_cases hk : key item ∈ q.queuedKeys
    · simpa only [dqPut, if_pos hk] using ⟨hmem, hnodupI, hnodupK⟩
    · have hki : key item ∉ q.items.map key := fun h => hk ((hmem _).mpr h)
      refine ⟨?_, ?_, ?_⟩
      · intro k
        simp only [dqPut, if_neg hk]
        show k ∈ key item :: q.queuedKeys ↔ k ∈ (q.items ++ [item]).map key
        rw [List.mem_cons, List.map_append, List.mem_append, hmem k, or_comm]
        simp
      · simp only [dqPut, if_neg hk]
        show ((q.items ++ [item]).map key).Nodup
        rw [List.map_append]
        refine List.Nodup.append hnodupI (by simp) ?_
        intro a ha hb
        simp only [List.map_cons, List.map_nil, List.mem_singleton] at hb
        exact hki (hb ▸ ha)
      · simp only [dqPut, if_neg hk]
        exact List.Nodup.cons hk hnodupK
  | get q item q' _ hget ih =>
    obtain ⟨hmem, hnodupI, hnodupK⟩ := ih
    cases hq : q.items with
    | nil => simp [dqGet, hq] at hget
    | cons it rest =>
      simp only [dqGet, hq, Option.some.injEq, Prod.mk.injEq] at hget
      obtain ⟨h1, h2⟩ := hget
      rw [hq, List.map_cons] at hnodupI
      have hrestN : (rest.map key).Nodup := hnodupI.of_cons
      have hkeyNot : key it ∉ rest.map key := (List.nodup_cons.mp hnodupI).1
      refine ⟨?_, ?_, ?_⟩
      · intro k
        rw [← h2]
        show k ∈ q.queuedKeys.erase (key it) ↔ k ∈ rest.map key
        rw [hnodupK.mem_erase_iff]
        constructor
        · rintro ⟨hne, hk⟩
          have hik := (hmem k).mp hk
          rw [hq, List.map_cons, List.mem_cons] at hik
          rcases hik with h | h
          · exact absurd h hne
          · exact h
        · intro hk
          refine ⟨fun he => hkeyNot (he ▸ hk), ?_⟩
          exact (hmem k).mpr (by rw [hq, List.map_cons]; exact List.mem_cons_of_mem _ hk)
      · rw [← h2]
        exact hrestN
      · rw [← h2]
        exact hnodupK.erase _

/-- C2: at every instant the `DeduplicatedQueue` contains at most one
queued item per key; `put(item)` enqueues and returns `True` iff no
currently-queued item has the same key (otherwise the queue is unchanged
and it returns `False`), and `get` removes the popped item's key from the
dedup set so a subsequent `put` of an item with that key succeeds. -/
theorem dedup_queue_at_most_one_per_key {T K : Type} [DecidableEq K]
    (key : T → K) (q : DQ T K) (h : DQReachable key q) :
    (∀ k, (q.items.map key).count k ≤ 1) ∧
    (∀ item, ((dqPut key q item).2 = true ↔ ∀ it ∈ q.items, key it ≠ key item) ∧
      ((dqPut key q item).2 = false → (dqPut key q item).1 = q)) ∧
    (∀ item q', dqGet key q = some (item, q') →
      ∀ it, key it = key item → (dqPut key q' it).2 = true) := by
  obtain ⟨hmem, hnodupI, hnodupK⟩ := dq_invariant key q h
  refine ⟨?_, ?_, ?_⟩
  · intro k
    exact List.nodup_iff_count_le_one.mp hnodupI k
  · intro item
    constructor
    · by_cases hk : key item ∈ q.queuedKeys
      · simp only [dqPut, if_pos hk]
        constructor
        · intro hcon
          exact Bool.noConfusion hcon
        · intro hall
          exfalso
          obtain ⟨it, hit, hkey⟩ := List.mem_map.mp ((hmem _).mp hk)
          exact hall it hit hkey
      · simp only [dqPut, if_neg hk]
        constructor
        · intro _ it hit hkey
          exact hk ((hmem _).mpr (List.mem_map.mpr ⟨it, hit, hkey⟩))
        · intro _
          trivial
    · intro hfalse
      by_cases hk : key item ∈ q.queuedKeys
      · simp [dqPut, hk]
      · simp [dqPut, hk] at hfalse
  · intro item q' hget it hkeyit
    cases hq : q.items with
    | nil => simp [dqGet, hq] at hget
    | cons ith rest =>
      simp only [dqGet, hq, Option.some.injEq, Prod.mk.injEq] at hget
      obtain ⟨h1, h2⟩ := hget
      have hnotin : key item ∉ q'.queuedKeys := by
        rw [← h2, ← h1]
        show key ith ∉ q.queuedKeys.erase (key ith)
        intro hcon
        exact absurd (hnodupK.mem_erase_iff.mp hcon).1 (by simp)
      simp only [dqPut, hkeyit, if_neg hnotin]

/-- Witness for `dedup_queue_at_most_one_per_key`: the reachable queue
obtained by putting `("!a", 0)` into a fresh queue keyed by the node id
holds the key `"!a"` at most once. -/
theorem dedup_queue_at_most_one_per_key_witness :
    (((dqPut Prod.fst (⟨[], []⟩ : DQ (String × Nat) String) ("!a", 0)).1.items.map
        Prod.fst).count "!a") ≤ 1 :=
  (dedup_queue_at_most_one_per_key Prod.fst _
    (DQReachable.put _ _ DQReachable.init)).1 "!a"

/-! ## TracerouteManager (utils/traceroute_manager.py)

State and configuration of `TracerouteManager`; timestamps are seconds as
naturals. `_last_global_traceroute_time` starts at `0`. -/

structure TrConfig where
  tracerouteInterval : Nat
  tracerouteCooldown : Nat
  maxRetries : Nat
  maxBackoff : Nat
deriving DecidableEq

structure TrState where
  lastTracerouteTime : List (NodeId × Nat)
  nodeFailureCounts : List (NodeId × Nat)
  nodeBackoffUntil : List (NodeId × Nat)
  lastGlobalTracerouteTime : Nat
deriving DecidableEq

/-- `_calculate_backoff_time`: no backoff below two consecutive failures,
then `interval * 2^(failures-2)` capped at `_MAX_BACKOFF`. -/
def calculateBackoffTime (cfg : TrConfig) (failureCount : Nat) : Nat :=
  if failureCount < 2 then 0
  else min (cfg.tracerouteInterval * 2 ^ (failureCount - 2)) cfg.maxBackoff

/-- `_is_node_in_backoff`: a node is in backoff iff it has a
`_node_backoff_until` entry strictly in the future. -/
def isNodeInBackoff (s : TrState) (nodeId : NodeId) (now : Nat) : Bool :=
  match mlookup s.nodeBackoffUntil nodeId with
  | none => false
  | some b => decide (now < b)

/-- `record_traceroute_success`: stamp `_last_traceroute_time[node] = now`,
drop the failure count and the backoff entry (then persist). -/
def recordTracerouteSuccess (s : TrState) (nodeId : NodeId) (now : Nat) : TrState :=
  { s with
    lastTracerouteTime := mset s.lastTracerouteTime nodeId now
    nodeFailureCounts := merase s.nodeFailureCounts nodeId
    nodeBackoffUntil := merase s.nodeBackoffUntil nodeId }

/-- `_record_traceroute_failure`: bump the consecutive-failure count; when
the new count reaches `_MAX_RETRIES` give up (returning `False`) without
touching the backoff map; otherwise install `now + backoff` when the
computed backoff is positive, and return `True`. -/
def recordTracerouteFailure (cfg : TrConfig) (s : TrState) (nodeId : NodeId)
    (now : Nat) : TrState × Bool :=
  let failureCount := (mlookup s.nodeFailureCounts nodeId).getD 0 + 1
  let s1 := { s with nodeFailureCounts := mset s.nodeFailureCounts nodeId failureCount }
  if cfg.maxRetries ≤ failureCount then (s1, false)
  else
    let backoffTime := calculateBackoffTime cfg failureCount
    if 0 < backoffTime then
      ({ s1 with nodeBackoffUntil := mset s1.nodeBackoffUntil nodeId (now + backoffTime) },
        true)
    else (s1, true)

/-! ### Persistence (`_save_state` / `_load_state`) -/

/-- The JSON document `_save_state` writes (temp-file + atomic rename). -/
structure SavedState where
  lastTracerouteTime : List (NodeId × Nat)
  nodeFailureCounts : List (NodeId × Nat)
  nodeBackoffUntil : List (NodeId × Nat)
  savedAt : Nat
deriving DecidableEq

def saveState (s : TrState) (now : Nat) : SavedState :=
  ⟨s.lastTracerouteTime, s.nodeFailureCounts, s.nodeBackoffUntil, now⟩

/-- The nodes `_load_state` collects as expired: `backoff_until < now`. -/
def expiredNodes (backoff : List (NodeId × Nat)) (now : Nat) : List NodeId :=
  (backoff.filter (fun p => decide (p.2 < now))).map Prod.fst

/-- `_load_state` on an existing, well-formed file: take the three maps,
then delete every expired node from `_node_backoff_until` and clear its
`_node_failure_counts` entry. `_last_traceroute_time` is never purged and
the global cooldown timestamp starts at `0`. -/
def loadState (d : SavedState) (now : Nat) : TrState :=
  let expired := expiredNodes d.nodeBackoffUntil now
  { lastTracerouteTime := d.lastTracerouteTime
    nodeFailureCounts := expired.foldl (fun m n => merase m n) d.nodeFailureCounts
    nodeBackoffUntil := expired.foldl (fun m n => merase m n) d.nodeBackoffUntil
    lastGlobalTracerouteTime := 0 }

theorem mlookup_foldl_merase {α : Type} (ks : List String)
    (m : List (String × α)) (k : String) :
    mlookup (ks.foldl (fun m n => merase m n) m) k =
      if k ∈ ks then none else mlookup m k := by
  induction ks generalizing m with
  | nil => simp
  | cons a ks ih =>
    rw [List.foldl_cons, ih, mlookup_merase]
    by_cases hks : k ∈ ks
    · simp [hks]
    · by_cases ha : k = a
      · simp [hks, ha]
      · simp [hks, ha]

theorem expiredNodes_subset (l : List (NodeId × Nat)) (now : Nat) (k : NodeId)
    (h : k ∈ expiredNodes l now) : k ∈ l.map Prod.fst := by
  simp only [expiredNodes, List.mem_map] at h
  obtain ⟨p, hp, hpk⟩ := h
  exact List.mem_map.mpr ⟨p, List.mem_of_mem_filter hp, hpk⟩

theorem mlookup_eq_some_iff_mem {α : Type} (l : List (String × α)) (k : String)
    (v : α) (hnodup : (l.map Prod.fst).Nodup) :
    mlookup l k = some v ↔ (k, v) ∈ l := by
  induction l with
  | nil => simp [mlookup]
  | cons p rest ih =>
    obtain ⟨pk, pv⟩ := p
    rw [List.map_cons, List.nodup_cons] at hnodup
    obtain ⟨hpk_not, hrest⟩ := hnodup
    by_cases hk : pk = k
    · subst hk
      have hl : mlookup ((pk, pv) :: rest) pk = some pv := by simp [mlookup]
      rw [hl, Option.some.injEq]
      constructor
      · intro hv
        exact List.mem_cons.mpr (Or.inl (by rw [hv]))
      · intro hmem
        rcases List.mem_cons.mp hmem with heq | hmem
        · injection heq with _ h2
          exact h2.symm
        · exact absurd (List.mem_map.mpr ⟨(pk, v), hmem, rfl⟩) hpk_not
    · have hl : mlookup ((pk, pv) :: rest) k = mlookup rest k := by
        simp [mlookup, hk]
      rw [hl, ih hrest]
      constructor
      · exact List.mem_cons_of_mem _
      · intro hmem
        rcases List.mem_cons.mp hmem with heq | hmem
        · injection heq with h1 _
          exact absurd h1.symm hk
        · exact hmem

theorem mem_expiredNodes (l : List (NodeId × Nat)) (now : Nat) (k : NodeId)
    (hnodup : (l.map Prod.fst).Nodup) :
    k ∈ expiredNodes l now ↔ ∃ v, mlookup l k = some v ∧ v < now := by
  simp only [expiredNodes, List.mem_map, List.mem_filter, decide_eq_true_eq]
  constructor
  · rintro ⟨⟨pk, pv⟩, ⟨hmem, hlt⟩, hpk⟩
    subst hpk
    exact ⟨pv, (mlookup_eq_some_iff_mem l pk pv hnodup).mpr hmem, hlt⟩
  · rintro ⟨v, hl, hlt⟩
    exact ⟨(k, v), ⟨(mlookup_eq_some_iff_mem l k v hnodup).mp hl, hlt⟩, rfl⟩

/-- C4 (amended): `load(save(s))` returns `s` with the purge applied:
`lastTracerouteTime` survives untouched; a `backoffUntil` entry survives
iff it is not STRICTLY before the load-time clock (`backoff_until < now`
is the purge test, so an entry equal to `now` is kept); a node's
failure-count entry is deleted exactly when its backoff entry is purged. -/
theorem load_save_roundtrip (s : TrState) (saveTime now : Nat) (k : NodeId)
    (hnodup : (s.nodeBackoffUntil.map Prod.fst).Nodup) :
    (loadState (saveState s saveTime) now).lastTracerouteTime = s.lastTracerouteTime ∧
    mlookup (loadState (saveState s saveTime) now).nodeBackoffUntil k =
      (match mlookup s.nodeBackoffUntil k with
       | some v => if v < now then none else some v
       | none => none) ∧
    mlookup (loadState (saveState s saveTime) now).nodeFailureCounts k =
      (match mlookup s.nodeBackoffUntil k with
       | some v => if v < now then none else mlookup s.nodeFailureCounts k
       | none => mlookup s.nodeFailureCounts k) := by
  refine ⟨rfl, ?_, ?_⟩
  · show mlookup ((expiredNodes s.nodeBackoffUntil now).foldl
        (fun m n => merase m n) s.nodeBackoffUntil) k = _
    rw [mlookup_foldl_merase]
    by_cases hc : k ∈ expiredNodes s.nodeBackoffUntil now
    · rw [if_pos hc]
      obtain ⟨v, hv, hlt⟩ := (mem_expiredNodes _ now k hnodup).mp hc
      rw [hv]
      simp [hlt]
    · rw [if_neg hc]
      cases hl : mlookup s.nodeBackoffUntil k with
      | none => simp
      | some v =>
        have hvnot : ¬ v < now :=
          fun hlt => hc ((mem_expiredNodes _ now k hnodup).mpr ⟨v, hl, hlt⟩)
        simp [hvnot]
  · show mlookup ((expiredNodes s.nodeBackoffUntil now).foldl
        (fun m n => merase m n) s.nodeFailureCounts) k = _
    rw [mlookup_foldl_merase]
    by_cases hc : k ∈ expiredNodes s.nodeBackoffUntil now
    · rw [if_pos hc]
      obtain ⟨v, hv, hlt⟩ := (mem_expiredNodes _ now k hnodup).mp hc
      rw [hv]
      simp [hlt]
    · rw [if_neg hc]
      cases hl : mlookup s.nodeBackoffUntil k with
      | none => simp
      | some v =>
        have hvnot : ¬ v < now :=
          fun hlt => hc ((mem_expiredNodes _ now k hnodup).mpr ⟨v, hl, hlt⟩)
        simp [hvnot]

/-- Witness for `load_save_roundtrip` on a one-node state with a live
backoff, loaded at time 100. -/
theorem load_save_roundtrip_witness :
    (loadState (saveState ⟨[("!a", 10)], [("!a", 2)], [("!a", 500)], 0⟩ 7)
        100).lastTracerouteTime = [("!a", 10)] ∧
    mlookup (loadState (saveState ⟨[("!a", 10)], [("!a", 2)], [("!a", 500)], 0⟩ 7)
        100).nodeBackoffUntil "!a" =
      (match mlookup [("!a", 500)] "!a" with
       | some v => if v < 100 then none else some v
       | none => none) ∧
    mlookup (loadState (saveState ⟨[("!a", 10)], [("!a", 2)], [("!a", 500)], 0⟩ 7)
        100).nodeFailureCounts "!a" =
      (match mlookup [("!a", 500)] "!a" with
       | some v => if v < 100 then none else mlookup [("!a", 2)] "!a"
       | none => mlookup [("!a", 2)] "!a") :=
  load_save_roundtrip ⟨[("!a", 10)], [("!a", 2)], [("!a", 500)], 0⟩ 7 100 "!a"
    (by decide)

/-- C4 counterexample: the claim purges every entry whose `backoffUntil`
is *not after* (≤) the load-time clock, but `_load_state` tests
`backoff_until < now`, so an entry exactly equal to `now` (here 1000)
survives the round trip together with its failure count. -/
theorem load_save_boundary_counterexample :
    mlookup (loadState (saveState ⟨[], [("!n", 5)], [("!n", 1000)], 0⟩ 999)
        1000).nodeBackoffUntil "!n" = some 1000 ∧
    mlookup (loadState (saveState ⟨[], [("!n", 5)], [("!n", 1000)], 0⟩ 999)
        1000).nodeFailureCounts "!n" = some 5 ∧ 1000 ≤ 1000 := by
  refine ⟨?_, ?_, le_refl 1000⟩ <;> rfl

/-- C3 (amended): `_record_traceroute_failure(n)` increments
`consecutiveFailures[n]` by exactly one (from 0 when absent); writing
`f` for the new count, it sets `backoffUntil[n] = now + backoff(f)` only
when `f < maxRetries` and `backoff(f) > 0`, leaves `backoffUntil`
unchanged when `backoff(f) = 0` (f < 2) or when `f ≥ maxRetries` (the
give-up path), and returns whether the node should be retried. -/
theorem record_failure_backoff (cfg : TrConfig) (s : TrState) (n : NodeId)
    (now : Nat) :
    mlookup (recordTracerouteFailure cfg s n now).1.nodeFailureCounts n =
      some ((mlookup s.nodeFailureCounts n).getD 0 + 1) ∧
    (∀ k, k ≠ n → mlookup (recordTracerouteFailure cfg s n now).1.nodeFailureCounts k =
      mlookup s.nodeFailureCounts k) ∧
    (recordTracerouteFailure cfg s n now).1.lastTracerouteTime = s.lastTracerouteTime ∧
    (recordTracerouteFailure cfg s n now).1.lastGlobalTracerouteTime =
      s.lastGlobalTracerouteTime ∧
    (cfg.maxRetries ≤ (mlookup s.nodeFailureCounts n).getD 0 + 1 →
      (recordTracerouteFailure cfg s n now).1.nodeBackoffUntil = s.nodeBackoffUntil ∧
      (recordTracerouteFailure cfg s n now).2 = false) ∧
    ((mlookup s.nodeFailureCounts n).getD 0 + 1 < cfg.maxRetries →
      0 < calculateBackoffTime cfg ((mlookup s.nodeFailureCounts n).getD 0 + 1) →
      mlookup (recordTracerouteFailure cfg s n now).1.nodeBackoffUntil n =
        some (now + calculateBackoffTime cfg ((mlookup s.nodeFailureCounts n).getD 0 + 1)) ∧
      (recordTracerouteFailure cfg s n now).2 = true) ∧
    ((mlookup s.nodeFailureCounts n).getD 0 + 1 < cfg.maxRetries →
      calculateBackoffTime cfg ((mlookup s.nodeFailureCounts n).getD 0 + 1) = 0 →
      (recordTracerouteFailure cfg s n now).1.nodeBackoffUntil = s.nodeBackoffUntil ∧
      (recordTracerouteFailure cfg s n now).2 = true) := by
  set f := (mlookup s.nodeFailureCounts n).getD 0 + 1 with hf
  by_cases hmax : cfg.maxRetries ≤ f
  · have hr : recordTracerouteFailure cfg s n now =
        (TrState.mk s.lastTracerouteTime (mset s.nodeFailureCounts n f)
          s.nodeBackoffUntil s.lastGlobalTracerouteTime, false) := by
      simp only [recordTracerouteFailure, ← hf, if_pos hmax]
    rw [hr]
    exact ⟨mlookup_mset_self _ _ _,
      fun k hk => mlookup_mset_ne _ _ _ _ (fun h => hk h.symm),
      rfl, rfl, fun _ => ⟨rfl, rfl⟩,
      fun hlt => absurd hmax (not_le.mpr hlt),
      fun hlt => absurd hmax (not_le.mpr hlt)⟩
  · by_cases hb : 0 < calculateBackoffTime cfg f
    · have hr : recordTracerouteFailure cfg s n now =
          (TrState.mk s.lastTracerouteTime (mset s.nodeFailureCounts n f)
            (mset s.nodeBackoffUntil n (now + calculateBackoffTime cfg f))
            s.lastGlobalTracerouteTime, true) := by
        simp only [recordTracerouteFailure, ← hf, if_neg hmax, if_pos hb]
      rw [hr]
      exact ⟨mlookup_mset_self _ _ _,
        fun k hk => mlookup_mset_ne _ _ _ _ (fun h => hk h.symm),
        rfl, rfl, fun hc => absurd hc hmax,
        fun _ _ => ⟨mlookup_mset_self _ _ _, rfl⟩,
        fun _ hz => absurd hb (by rw [hz]; exact lt_irrefl 0)⟩
    · have hr : recordTracerouteFailure cfg s n now =
          (TrState.mk s.lastTracerouteTime (mset s.nodeFailureCounts n f)
            s.nodeBackoffUntil s.lastGlobalTracerouteTime, true) := by
        simp only [recordTracerouteFailure, ← hf, if_neg hmax, if_neg hb]
      rw [hr]
      exact ⟨mlookup_mset_self _ _ _,
        fun k hk => mlookup_mset_ne _ _ _ _ (fun h => hk h.symm),
        rfl, rfl, fun hc => absurd hc hmax,
        fun _ hpos => absurd hpos hb, fun _ _ => ⟨rfl, rfl⟩⟩

/-- Witness for `record_failure_backoff`: second failure of node `"!n"`
with the default configuration installs `backoffUntil = 1000 + 43200`. -/
theorem record_failure_backoff_witness :
    mlookup (recordTracerouteFailure ⟨43200, 180, 3, 86400⟩
        ⟨[], [("!n", 1)], [], 0⟩ "!n" 1000).1.nodeFailureCounts "!n" = some 2 ∧
    mlookup (recordTracerouteFailure ⟨43200, 180, 3, 86400⟩
        ⟨[], [("!n", 1)], [], 0⟩ "!n" 1000).1.nodeBackoffUntil "!n" = some 44200 := by
  have h := record_failure_backoff ⟨43200, 180, 3, 86400⟩ ⟨[], [("!n", 1)], [], 0⟩ "!n" 1000
  refine ⟨?_, ?_⟩
  · have := h.1
    simpa using this
  · have := (h.2.2.2.2.2.1 (by decide) (by decide)).1
    simpa using this

/-- C3 counterexample: when the new failure count reaches `maxRetries`
(here the third failure with `maxRetries = 3`), the code gives up WITHOUT
setting any backoff entry, while the claim demands
`backoffUntil["!n"] = now + backoff(3) = 1000 + 86400`. -/
theorem record_failure_counterexample :
    (recordTracerouteFailure ⟨43200, 180, 3, 86400⟩ ⟨[], [("!n", 2)], [], 0⟩
        "!n" 1000).1.nodeFailureCounts = [("!n", 3)] ∧
    mlookup (recordTracerouteFailure ⟨43200, 180, 3, 86400⟩ ⟨[], [("!n", 2)], [], 0⟩
        "!n" 1000).1.nodeBackoffUntil "!n" = none ∧
    1000 + calculateBackoffTime ⟨43200, 180, 3, 86400⟩ 3 = 87400 := by
  refine ⟨rfl, rfl, ?_⟩
  norm_num [calculateBackoffTime]

/-! ### Worker loop (`_traceroute_worker`, `_run_traceroute`,
`_execute_traceroute`)

The queue of `(node_id, retries)` jobs is the `DeduplicatedQueue` keyed by
`lambda x: x[0]`. External effects of one atomic worker step are supplied
as oracles: whether the shutdown flag is set, whether
`connection_manager.get_ready_interface()` returns an interface, and how
the `interface.sendTraceRoute` future resolves. -/

abbrev JobQueue := DQ (NodeId × Nat) NodeId

def jobKey : NodeId × Nat → NodeId := Prod.fst

/-- Resolution of the `sendTraceRoute` future inside the executor. -/
inductive SendOutcome
  | ok
  | timeout
  | interfaceError
deriving DecidableEq

inductive TracerouteResult
  | success
  | connectionError
  | failure
deriving DecidableEq

/-- `_execute_traceroute`: a clean future is "success"; a
`FutureTimeoutError` records a traceroute failure and yields "failure";
any other interface exception yields "connection_error". -/
def executeTraceroute (cfg : TrConfig) (s : TrState) (nodeId : NodeId) (now : Nat)
    (outcome : SendOutcome) : TrState × TracerouteResult :=
  match outcome with
  | .ok => (s, .success)
  | .timeout => ((recordTracerouteFailure cfg s nodeId now).1, .failure)
  | .interfaceError => (s, .connectionError)

/-- `_run_traceroute`: bail out as "connection_error" when shutting down or
when no ready interface is available; otherwise FIRST stamp
`_last_global_traceroute_time = now` and then execute the send, so every
actual send attempt (also one that later times out) consumes the global
cooldown slot. -/
def runTraceroute (cfg : TrConfig) (s : TrState) (nodeId : NodeId)
    (shutdown interfaceAvailable : Bool) (now : Nat) (outcome : SendOutcome) :
    TrState × TracerouteResult :=
  if shutdown then (s, .connectionError)
  else if !interfaceAvailable then (s, .connectionError)
  else executeTraceroute cfg { s with lastGlobalTracerouteTime := now } nodeId now outcome

/-- The classify-and-requeue tail of one `_traceroute_worker` iteration
(after the backoff re-queue and cooldown nap): run the traceroute, then on
"connection_error" re-enqueue the same job unchanged, on "failure"
re-enqueue with `retries+1` while the failure count stays below
`_MAX_RETRIES`, and on "success" do nothing further. -/
def workerProcessJob (cfg : TrConfig) (s : TrState) (q : JobQueue)
    (nodeId : NodeId) (retries : Nat) (shutdown interfaceAvailable : Bool)
    (now : Nat) (outcome : SendOutcome) : TrState × JobQueue :=
  let res := runTraceroute cfg s nodeId shutdown interfaceAvailable now outcome
  let failureCount := (mlookup res.1.nodeFailureCounts nodeId).getD 0
  match res.2 with
  | .success => (res.1, q)
  | .connectionError =>
      (res.1, if shutdown then q else (dqPut jobKey q (nodeId, retries)).1)
  | .failure =>
      if failureCount < cfg.maxRetries && !shutdown then
        (res.1, (dqPut jobKey q (nodeId, retries + 1)).1)
      else (res.1, q)

lemma recordTracerouteFailure_preserves (cfg : TrConfig) (s : TrState)
    (n : NodeId) (now : Nat) :
    (recordTracerouteFailure cfg s n now).1.lastTracerouteTime = s.lastTracerouteTime ∧
    (recordTracerouteFailure cfg s n now).1.lastGlobalTracerouteTime =
      s.lastGlobalTracerouteTime := by
  unfold recordTracerouteFailure
  by_cases h1 : cfg.maxRetries ≤ (mlookup s.nodeFailureCounts n).getD 0 + 1
  · simp [h1]
  · by_cases h2 : 0 < calculateBackoffTime cfg ((mlookup s.nodeFailureCounts n).getD 0 + 1)
    · simp [h1, h2]
    · simp [h1, h2]

/-- The moment the cooldown nap of worker-loop step 3 ends: if the time
since the last global traceroute is below `_TRACEROUTE_COOLDOWN` the
worker sleeps the remainder (in interruptible ≤1 s increments,
re-checking the remaining cooldown after each nap), so it wakes exactly at
`lastGlobal + cooldown`; otherwise it proceeds at once. -/
def cooldownNapEnd (cfg : TrConfig) (lastGlobal now : Nat) : Nat :=
  if now - lastGlobal < cfg.tracerouteCooldown then
    lastGlobal + cfg.tracerouteCooldown
  else now

lemma cooldownNapEnd_ge (cfg : TrConfig) (g now : Nat) (h : g ≤ now) :
    g + cfg.tracerouteCooldown ≤ cooldownNapEnd cfg g now := by
  unfold cooldownNapEnd
  split <;> omega

/-- The successive send-attempt instants produced by the single worker
starting from global timestamp `g`: the worker picks up a job at some
`now ≥ g` (time advances monotonically), naps through the remaining
cooldown, sends at `cooldownNapEnd cfg g now`, and — because
`_run_traceroute` stamps `_last_global_traceroute_time` at the send — the
next round starts from that instant. -/
inductive SendTimes (cfg : TrConfig) : Nat → List Nat → Prop
  | nil (g : Nat) : SendTimes cfg g []
  | cons (g now : Nat) (rest : List Nat) (h : g ≤ now) :
      SendTimes cfg (cooldownNapEnd cfg g now) rest →
      SendTimes cfg g (cooldownNapEnd cfg g now :: rest)

lemma sendTimes_head_ge (cfg : TrConfig) (g t : Nat) (ts : List Nat)
    (h : SendTimes cfg g (t :: ts)) : g + cfg.tracerouteCooldown ≤ t := by
  cases h with
  | cons g now rest hle _ => exact cooldownNapEnd_ge cfg g now hle

/-- C1: any two successive traceroute send attempts of the single worker
are at least `tracerouteCooldown` apart (the worker naps through the
remaining cooldown before each send), and `_run_traceroute` stamps
`_last_global_traceroute_time = now` before the send for every outcome —
so sends that fail (time out) also consume a cooldown slot. -/
theorem global_cooldown (cfg : TrConfig) (g : Nat) (ts : List Nat)
    (h : SendTimes cfg g ts) :
    List.Chain' (fun t1 t2 => t1 + cfg.tracerouteCooldown ≤ t2) ts ∧
    (∀ s n now outcome,
      (runTraceroute cfg s n false true now outcome).1.lastGlobalTracerouteTime
        = now) := by
  constructor
  · induction h with
    | nil g => exact List.chain'_nil
    | cons g now rest hle htail ih =>
      rw [List.chain'_cons']
      refine ⟨?_, ih⟩
      intro b hb
      cases rest with
      | nil => simp at hb
      | cons t ts =>
        simp only [List.head?_cons, Option.mem_def, Option.some.injEq] at hb
        subst hb
        exact sendTimes_head_ge cfg _ _ _ htail
  · intro s n now outcome
    cases outcome with
    | ok => rfl
    | timeout =>
      exact (recordTracerouteFailure_preserves cfg
        { s with lastGlobalTracerouteTime := now } n now).2
    | interfaceError => rfl

/-- Witness for `global_cooldown`: with the default 180 s cooldown the
worker trace that picks jobs up at times 0 and 400 sends at 180 and 400,
which are ≥ 180 s apart. -/
theorem global_cooldown_witness :
    List.Chain'
      (fun t1 t2 => t1 + (⟨43200, 180, 3, 86400⟩ : TrConfig).tracerouteCooldown ≤ t2)
      [180, 400] ∧
    (∀ s n now outcome,
      (runTraceroute ⟨43200, 180, 3, 86400⟩ s n false true now
          outcome).1.lastGlobalTracerouteTime = now) := by
  refine global_cooldown ⟨43200, 180, 3, 86400⟩ 0 [180, 400] ?_
  have h1 : SendTimes ⟨43200, 180, 3, 86400⟩ 180 [400] := by
    have h := @SendTimes.cons ⟨43200, 180, 3, 86400⟩ 180 400 [] (by omega)
      (SendTimes.nil _)
    have he : cooldownNapEnd ⟨43200, 180, 3, 86400⟩ 180 400 = 400 := by
      norm_num [cooldownNapEnd]
    rwa [he] at h
  have h1' : SendTimes ⟨43200, 180, 3, 86400⟩ (cooldownNapEnd ⟨43200, 180, 3, 86400⟩ 0 0)
      [400] := by
    have he : cooldownNapEnd ⟨43200, 180, 3, 86400⟩ 0 0 = 180 := by
      norm_num [cooldownNapEnd]
    rw [he]
    exact h1
  have h0 := @SendTimes.cons ⟨43200, 180, 3, 86400⟩ 0 0 [400] (le_refl 0) h1'
  have he : cooldownNapEnd ⟨43200, 180, 3, 86400⟩ 0 0 = 180 := by
    norm_num [cooldownNapEnd]
  rwa [he] at h0

/-- C9: while ConnectionManager yields no ready interface (and shutdown is
not in progress), `_run_traceroute` classifies the job as
connection_error leaving the whole traceroute state — failure counts,
backoff map, and the global cooldown timestamp — untouched, and the worker
re-enqueues the job with the SAME retry count. -/
theorem connection_error_no_penalty (cfg : TrConfig) (s : TrState) (q : JobQueue)
    (n : NodeId) (retries : Nat) (now : Nat) (outcome : SendOutcome) :
    (runTraceroute cfg s n false false now outcome).2 =
      TracerouteResult.connectionError ∧
    (runTraceroute cfg s n false false now outcome).1 = s ∧
    workerProcessJob cfg s q n retries false false now outcome =
      (s, (dqPut jobKey q (n, retries)).1) :=
  ⟨rfl, rfl, rfl⟩

/-- C5 (amended): a successful traceroute *send* does not update
`lastSentAt` — on a "success" outcome the worker changes nothing beyond
the already-stamped global cooldown timestamp, and in particular
`_last_traceroute_time[n]` keeps its old value. `lastSentAt[n]` is set
(with the failure count and backoff cleared) only by
`record_traceroute_success`, which is invoked on traceroute *reply*
receipt — the periodic refresh rule is reply-driven, not send-driven. -/
theorem success_accounting (cfg : TrConfig) (s : TrState) (q : JobQueue)
    (n : NodeId) (retries : Nat) (now : Nat) :
    (workerProcessJob cfg s q n retries false true now SendOutcome.ok).1 =
      { s with lastGlobalTracerouteTime := now } ∧
    (workerProcessJob cfg s q n retries false true now SendOutcome.ok).2 = q ∧
    mlookup (workerProcessJob cfg s q n retries false true now
        SendOutcome.ok).1.lastTracerouteTime n = mlookup s.lastTracerouteTime n ∧
    mlookup (recordTracerouteSuccess s n now).lastTracerouteTime n = some now ∧
    mlookup (recordTracerouteSuccess s n now).nodeFailureCounts n = none ∧
    mlookup (recordTracerouteSuccess s n now).nodeBackoffUntil n = none := by
  refine ⟨rfl, rfl, rfl, mlookup_mset_self _ _ _, ?_, ?_⟩
  · show mlookup (merase s.nodeFailureCounts n) n = none
    rw [mlookup_merase, if_pos rfl]
  · show mlookup (merase s.nodeBackoffUntil n) n = none
    rw [mlookup_merase, if_pos rfl]

/-- C5 counterexample: starting from the empty traceroute state, the send
to `"!abcd1234"` at time 100 resolves successfully (worker outcome
"success"), yet `lastSentAt` still has no entry for that node — it is not
set to the send time as the claim states. -/
theorem success_accounting_counterexample :
    (runTraceroute ⟨43200, 180, 3, 86400⟩ ⟨[], [], [], 0⟩ "!abcd1234" false true 100
        SendOutcome.ok).2 = TracerouteResult.success ∧
    mlookup (runTraceroute ⟨43200, 180, 3, 86400⟩ ⟨[], [], [], 0⟩ "!abcd1234" false
        true 100 SendOutcome.ok).1.lastTracerouteTime "!abcd1234" = none :=
  ⟨rfl, rfl⟩

/-! ## Bridge (producer.py, `MeshtasticMQTTHandler`)

Decoded packets are Python dicts: association lists over a small value
type. Protobuf parsing of binary payloads and the radio's `nodes` DB are
external (meshtastic library) and appear as oracle fields of `DecodeEnv`;
the handler's own control flow around them is translated literally. -/

inductive PyVal
  | str (s : String)
  | num (n : Int)
  | boolean (b : Bool)
  | null
  | arr (xs : List PyVal)
  | obj (fields : List (String × PyVal))

abbrev Packet := List (String × PyVal)

/-- Python `str(...)` as used on `from` values and in the topic f-string
(scalar values only; containers never occur in those positions). -/
def pyStr : PyVal → String
  | .str s => s
  | .num n => toString n
  | .boolean b => if b then "True" else "False"
  | .null => "None"
  | .arr _ => "<list>"
  | .obj _ => "<dict>"

/-- One `_node_cache` entry: `{"position": ..., "long_name": ...}`. The
position tuple holds parsed floats and is kept abstract as a `PyVal`. -/
structure CacheEntry where
  position : Option PyVal
  longName : Option String

/-- The traceroute-relevant mutable state of `MeshtasticMQTTHandler`:
`_node_cache`, `_last_traceroute_time`, and the plain FIFO
`_traceroute_queue` (a `queue.Queue`, NOT deduplicated, in this class). -/
structure ProducerState where
  nodeCache : List (NodeId × CacheEntry)
  lastTracerouteTimeP : List (NodeId × Nat)
  tracerouteQueue : List (NodeId × Nat)

/-- Results of the external library calls made while updating the cache
from one packet. `parsedPosition`/`parsedLongName`/`parsedRoute` are
`none` when payload bytes are unavailable (`get_payload_bytes` returned
`None`) or protobuf parsing raised; `ifaceNodesUser` is `some u` when the
interface's `nodes` DB has this node with a truthy `user` dict, `u` being
its `longName` when that is truthy. -/
structure DecodeEnv where
  parsedPosition : Option (Option PyVal)
  parsedLongName : Option String
  parsedRoute : Option (PyVal × PyVal × PyVal × PyVal)
  ifaceNodesUser : Option (Option String)

/-- `decoded.get("portnum") == name` (Python `==` of a value against a
string literal: only a string compares equal). -/
def portnumIs (decoded : Packet) (name : String) : Bool :=
  match mlookup decoded "portnum" with
  | some (PyVal.str s) => s == name
  | _ => false

/-- `isinstance(payload, dict)` on `decoded.get("payload")`. -/
def payloadIsDict (decoded : Packet) : Bool :=
  match mlookup decoded "payload" with
  | some (PyVal.obj _) => true
  | _ => false

/-- Outcome of one `_update_cache_from_packet` call: a normal `return`
value (always `None` in this code), or an exception escaping to the
caller — the `AttributeError` raised by `decoded.get(...)` when the
packet's `"decoded"` value is present but not a dict. -/
inductive UpdateOutcome
  | returned (r : Option Bool)
  | raised

/-- Python's `x is None` test on a dict value. -/
def PyVal.isNull : PyVal → Bool
  | .null => true
  | _ => false

/-- `packet.get("decoded", {})`, as consumed by `decoded.get(...)`:
`some` of the field list for a dict value (or the `{}` default when the
key is absent); `none` when the value is present but not a dict — then
the first `decoded.get("portnum")` raises `AttributeError`. -/
def decodedOf (p : Packet) : Option Packet :=
  match mlookup p "decoded" with
  | none => some []
  | some (PyVal.obj fields) => some fields
  | some _ => none

/-- `_update_cache_from_packet` (producer.py): `packet.get("from")` —
return `None` immediately when the key is absent OR its value is `None`;
otherwise `str()` it, note whether the node is new, `setdefault` the
cache entry, then read `decoded.get("portnum")` — which raises
`AttributeError` out of the function when `"decoded"` is present but not
a dict, leaving only the `setdefault` insertion behind (no enqueue, no
return value). On the normal path: update position / long-name from the
decoded payload per app port, splice traceroute route data into the
packet dict, prefer the interface `nodes` DB long-name, and finally
enqueue `(node_id, 0)` for new nodes and again when the periodic interval
has elapsed, returning `None`. The reply-tracking side tables
(`_pending_traceroutes`/`_traceroute_replies`) are not modelled. Result:
(new state, possibly-mutated packet dict, outcome). -/
def updateCacheFromPacket (pInterval : Nat) (st : ProducerState) (p : Packet)
    (env : DecodeEnv) (now : Nat) : ProducerState × Packet × UpdateOutcome :=
  match mlookup p "from" with
  | none => (st, p, .returned none)
  | some v =>
    if v.isNull then (st, p, .returned none)
    else
      let nodeId := pyStr v
      let isNew := (mlookup st.nodeCache nodeId).isNone
      let entry0 := (mlookup st.nodeCache nodeId).getD ⟨none, none⟩
      let cacheSetdefault :=
        if isNew then mset st.nodeCache nodeId (CacheEntry.mk none none)
        else st.nodeCache
      match decodedOf p with
      | none =>
        (⟨cacheSetdefault, st.lastTracerouteTimeP, st.tracerouteQueue⟩, p, .raised)
      | some decoded =>
        let entry1 :=
          if portnumIs decoded "POSITION_APP" && !payloadIsDict decoded then
            match env.parsedPosition with
            | some posOpt => { entry0 with position := posOpt }
            | none => entry0
          else entry0
        let entry2 :=
          if portnumIs decoded "USER_APP" && !payloadIsDict decoded then
            match env.parsedLongName with
            | some nm => { entry1 with longName := some nm }
            | none => entry1
          else entry1
        let p1 :=
          if portnumIs decoded "TRACEROUTE_APP" && !payloadIsDict decoded then
            match env.parsedRoute with
            | some (route, snrT, routeB, snrB) =>
              mset (mset (mset (mset p "route" route) "snr_towards" snrT)
                "route_back" routeB) "snr_back" snrB
            | none => p
          else p
        let entry3 :=
          match env.ifaceNodesUser with
          | some u =>
            { entry2 with
              longName := match u with
                | some nm => some nm
                | none => entry2.longName }
          | none => entry2
        let q1 := if isNew then st.tracerouteQueue ++ [(nodeId, 0)]
                  else st.tracerouteQueue
        let lastTime := (mlookup st.lastTracerouteTimeP nodeId).getD 0
        let q2 := if pInterval < now - lastTime then q1 ++ [(nodeId, 0)] else q1
        (⟨mset st.nodeCache nodeId entry3, st.lastTracerouteTimeP, q2⟩, p1,
          .returned none)

/-- Sources for the gateway id of `onReceive`: whether
`connection_manager.get_interface()` returned an interface, the
`getMyNodeInfo()["user"]["id"]` value when that call succeeds, and the
cached `connected_node_id` attribute. -/
structure GatewayEnv where
  interfaceUp : Bool
  myNodeUserId : Option String
  connectedNodeId : Option String

/-- The gateway-id computation of `onReceive`: node info when the
interface is up and the lookup succeeds, else the cached
`connected_node_id`, else the literal `"unknown"`. -/
def gatewayIdOf (g : GatewayEnv) : String :=
  if g.interfaceUp then
    match g.myNodeUserId with
    | some i => i
    | none => g.connectedNodeId.getD "unknown"
  else g.connectedNodeId.getD "unknown"

/-- MQTT-side oracles of `publish_dict_to_mqtt`: the `mqtt_connected`
flag, and whether the `mqtt_client.reconnect()` attempt raises. -/
structure MqttEnv where
  mqttConnected : Bool
  reconnectOk : Bool

/-- Building `f"{self.topic}/{payload['fromId']}"`: raises `KeyError`
when the payload has no `fromId` key. -/
def buildTopic (rootTopic : String) (payload : Packet) : Except String String :=
  match mlookup payload "fromId" with
  | none => Except.error "KeyError: fromId"
  | some v => Except.ok (rootTopic ++ "/" ++ pyStr v)

/-- `publish_dict_to_mqtt`: when MQTT is down try one reconnect and give
up (returning, publish skipped) if it raises; then build the topic and
publish — any exception (notably the `KeyError` from a missing `fromId`)
is caught, logged and swallowed, so the handler never raises. Result:
`some (topic, payload)` on publish, `none` when nothing was published. -/
def publishDictToMqtt (rootTopic : String) (mq : MqttEnv) (payload : Packet) :
    Option (String × Packet) :=
  if !mq.mqttConnected && !mq.reconnectOk then none
  else
    match buildTopic rootTopic payload with
    | Except.error _ => none
    | Except.ok topic => some (topic, payload)

/-- `onReceive` on a message already decoded to a dict (the
`isinstance(packet, dict)` branch; the bytes/str branches reach the same
point through external json/base64/protobuf decoding): skip falsy (empty)
dicts, update the node cache, then copy every decoded field into the
outgoing envelope, stamp `gatewayId` and `source = "rf"` and hand it to
`publish_dict_to_mqtt`. The whole body is wrapped in try/except: an
exception escaping `_update_cache_from_packet` (the `AttributeError` on a
non-dict `"decoded"`) is caught there, skipping the envelope build and
the publish while keeping the cache mutations already made. The
web-interface update is out of scope. -/
def onReceive (pInterval : Nat) (rootTopic : String) (st : ProducerState)
    (g : GatewayEnv) (mq : MqttEnv) (p : Packet) (env : DecodeEnv) (now : Nat) :
    ProducerState × Option (String × Packet) :=
  if p.isEmpty then (st, none)
  else
    let r := updateCacheFromPacket pInterval st p env now
    match r.2.2 with
    | .raised => (r.1, none)
    | .returned _ =>
      let outPacket := mset (mset r.2.1 "gatewayId" (PyVal.str (gatewayIdOf g)))
        "source" (PyVal.str "rf")
      (r.1, publishDictToMqtt rootTopic mq outPacket)

lemma updateCache_no_from (pI : Nat) (st : ProducerState) (p : Packet)
    (env : DecodeEnv) (now : Nat) (hfrom : mlookup p "from" = none) :
    updateCacheFromPacket pI st p env now = (st, p, UpdateOutcome.returned none) := by
  simp only [updateCacheFromPacket, hfrom]

lemma updateCache_null_from (pI : Nat) (st : ProducerState) (p : Packet)
    (env : DecodeEnv) (now : Nat) (hfrom : mlookup p "from" = some PyVal.null) :
    updateCacheFromPacket pI st p env now = (st, p, UpdateOutcome.returned none) := by
  simp only [updateCacheFromPacket, hfrom]
  rfl

lemma updateCache_raise (pI : Nat) (st : ProducerState) (p : Packet)
    (env : DecodeEnv) (now : Nat) (v : PyVal) (hfrom : mlookup p "from" = some v)
    (hnull : v.isNull = false) (hdec : decodedOf p = none) :
    updateCacheFromPacket pI st p env now =
      (⟨if (mlookup st.nodeCache (pyStr v)).isNone then
          mset st.nodeCache (pyStr v) (CacheEntry.mk none none)
        else st.nodeCache, st.lastTracerouteTimeP, st.tracerouteQueue⟩, p,
        UpdateOutcome.raised) := by
  simp only [updateCacheFromPacket, hfrom, hnull, Bool.false_eq_true, if_false, hdec]

lemma updateCache_some_facts (pI : Nat) (st : ProducerState) (p : Packet)
    (env : DecodeEnv) (now : Nat) (v : PyVal) (d : Packet)
    (hfrom : mlookup p "from" = some v) (hnull : v.isNull = false)
    (hdec : decodedOf p = some d) :
    (updateCacheFromPacket pI st p env now).2.2 = UpdateOutcome.returned none ∧
    (mlookup (updateCacheFromPacket pI st p env now).1.nodeCache (pyStr v)).isSome ∧
    ((mlookup st.nodeCache (pyStr v)).isNone = true →
      (pyStr v, 0) ∈ (updateCacheFromPacket pI st p env now).1.tracerouteQueue) := by
  simp only [updateCacheFromPacket, hfrom, hnull, Bool.false_eq_true, if_false, hdec]
  refine ⟨?_, ?_, ?_⟩
  · trivial
  · rw [mlookup_mset_self]
    rfl
  · intro hnew
    show (pyStr v, 0) ∈
      (if pI < now - (mlookup st.lastTracerouteTimeP (pyStr v)).getD 0 then
        (if (mlookup st.nodeCache (pyStr v)).isNone then
          st.tracerouteQueue ++ [(pyStr v, 0)] else st.tracerouteQueue) ++ [(pyStr v, 0)]
      else
        (if (mlookup st.nodeCache (pyStr v)).isNone then
          st.tracerouteQueue ++ [(pyStr v, 0)] else st.tracerouteQueue))
    rw [if_pos hnew]
    by_cases hper : pI < now - (mlookup st.lastTracerouteTimeP (pyStr v)).getD 0
    · rw [if_pos hper]
      simp
    · rw [if_neg hper]
      simp

lemma updateCache_fromId_preserved (pI : Nat) (st : ProducerState) (p : Packet)
    (env : DecodeEnv) (now : Nat) :
    mlookup (updateCacheFromPacket pI st p env now).2.1 "fromId" =
      mlookup p "fromId" := by
  cases hfrom : mlookup p "from" with
  | none => simp only [updateCacheFromPacket, hfrom]
  | some v =>
    by_cases hnull : v.isNull = true
    · simp [updateCacheFromPacket, hfrom, hnull]
    · rw [Bool.not_eq_true] at hnull
      cases hdec : decodedOf p with
      | none =>
        rw [updateCache_raise pI st p env now v hfrom hnull hdec]
      | some d =>
        simp only [updateCacheFromPacket, hfrom, hnull, Bool.false_eq_true,
          if_false, hdec]
        by_cases hc : (portnumIs d "TRACEROUTE_APP" && !payloadIsDict d) = true
        · rw [if_pos hc]
          cases hr : env.parsedRoute with
          | none => rfl
          | some r =>
            obtain ⟨route, snrT, routeB, snrB⟩ := r
            show mlookup (mset (mset (mset (mset p "route" route) "snr_towards" snrT)
              "route_back" routeB) "snr_back" snrB) "fromId" = mlookup p "fromId"
            rw [mlookup_mset_ne _ _ _ _ (by decide), mlookup_mset_ne _ _ _ _ (by decide),
              mlookup_mset_ne _ _ _ _ (by decide), mlookup_mset_ne _ _ _ _ (by decide)]
        · rw [if_neg hc]

/-- C6 (amended): `_update_cache_from_packet` keys off
`packet.get("from")` (not `fromId`) and never returns a boolean: when the
`"from"` key is absent OR its value is `None` it returns `None` at once,
leaving state and packet unchanged; when `"decoded"` is present but not a
dict it raises `AttributeError` to the caller right after the
`setdefault` cache insertion, before any enqueue; on the remaining
(normal) paths it returns `None` after inserting/updating the cache entry
for `str(from)`, the is-new test (node id absent from the cache before
the call) being consumed internally to enqueue a `(node_id, 0)`
traceroute job instead of being returned. -/
theorem update_cache_from_field (pI : Nat) (st : ProducerState) (p : Packet)
    (env : DecodeEnv) (now : Nat) :
    (mlookup p "from" = none →
      updateCacheFromPacket pI st p env now = (st, p, UpdateOutcome.returned none)) ∧
    (mlookup p "from" = some PyVal.null →
      updateCacheFromPacket pI st p env now = (st, p, UpdateOutcome.returned none)) ∧
    (∀ v, mlookup p "from" = some v → v.isNull = false → decodedOf p = none →
      updateCacheFromPacket pI st p env now =
        (⟨if (mlookup st.nodeCache (pyStr v)).isNone then
            mset st.nodeCache (pyStr v) (CacheEntry.mk none none)
          else st.nodeCache, st.lastTracerouteTimeP, st.tracerouteQueue⟩, p,
          UpdateOutcome.raised)) ∧
    (∀ v d, mlookup p "from" = some v → v.isNull = false → decodedOf p = some d →
      (updateCacheFromPacket pI st p env now).2.2 = UpdateOutcome.returned none ∧
      (mlookup (updateCacheFromPacket pI st p env now).1.nodeCache (pyStr v)).isSome ∧
      ((mlookup st.nodeCache (pyStr v)).isNone = true →
        (pyStr v, 0) ∈ (updateCacheFromPacket pI st p env now).1.tracerouteQueue)) :=
  ⟨updateCache_no_from pI st p env now,
    updateCache_null_from pI st p env now,
    fun v h1 h2 h3 => updateCache_raise pI st p env now v h1 h2 h3,
    fun v d h1 h2 h3 => updateCache_some_facts pI st p env now v d h1 h2 h3⟩

/-- Witness for `update_cache_from_field`: a fresh node arriving as
`{"from": 7}` (no `"decoded"` key) is cached under `"7"`, a `("7", 0)`
job is enqueued, and the function returns `None`. -/
theorem update_cache_from_field_witness :
    (updateCacheFromPacket 10800 ⟨[], [], []⟩ [("from", PyVal.num 7)]
        ⟨none, none, none, none⟩ 50).2.2 = UpdateOutcome.returned none ∧
    (mlookup (updateCacheFromPacket 10800 ⟨[], [], []⟩ [("from", PyVal.num 7)]
        ⟨none, none, none, none⟩ 50).1.nodeCache (pyStr (PyVal.num 7))).isSome ∧
    ((mlookup (ProducerState.mk [] [] []).nodeCache (pyStr (PyVal.num 7))).isNone = true →
      (pyStr (PyVal.num 7), 0) ∈ (updateCacheFromPacket 10800 ⟨[], [], []⟩
        [("from", PyVal.num 7)] ⟨none, none, none, none⟩ 50).1.tracerouteQueue) :=
  (update_cache_from_field 10800 ⟨[], [], []⟩ [("from", PyVal.num 7)]
    ⟨none, none, none, none⟩ 50).2.2.2 (PyVal.num 7) [] rfl rfl rfl

/-- C6 counterexample: a packet carrying only a `fromId` key is ignored
outright (the code reads `"from"`), and a packet from a brand-new node
returns `None`, not `True`, so the claimed `fromId` extraction and
boolean return both fail on the code. -/
theorem update_cache_counterexample :
    updateCacheFromPacket 10800 ⟨[], [], []⟩ [("fromId", PyVal.str "!abc12345")]
        ⟨none, none, none, none⟩ 50 =
      (⟨[], [], []⟩, [("fromId", PyVal.str "!abc12345")], UpdateOutcome.returned none) ∧
    (updateCacheFromPacket 10800 ⟨[], [], []⟩ [("from", PyVal.num 7)]
        ⟨none, none, none, none⟩ 50).2.2 ≠ UpdateOutcome.returned (some true) := by
  refine ⟨rfl, ?_⟩
  intro h
  injection h with h'
  exact Option.noConfusion h'

/-- C10 (amended): a nonempty packet that decodes to a dict with no
`"fromId"` key makes `onReceive` run to completion with NO publish: on
the normal path the missing key fails the topic build inside
`publish_dict_to_mqtt` (`KeyError`, caught and logged there); the node
cache is updated and, for a new node, the traceroute queue as well — but
only when the packet's `"from"` field holds a non-null value and its
`"decoded"` value is a dict or absent (a non-dict `"decoded"` raises out
of the cache update after the `setdefault` insertion, skipping the
enqueue, with the exception caught by `onReceive`'s own except). -/
theorem onreceive_missing_fromid (pI : Nat) (root : String) (st : ProducerState)
    (g : GatewayEnv) (mq : MqttEnv) (p : Packet) (env : DecodeEnv) (now : Nat)
    (v : PyVal) (d : Packet) (hne : p.isEmpty = false)
    (hfromid : mlookup p "fromId" = none) (hfrom : mlookup p "from" = some v)
    (hnull : v.isNull = false) (hdec : decodedOf p = some d) :
    (onReceive pI root st g mq p env now).2 = none ∧
    buildTopic root (mset (mset (updateCacheFromPacket pI st p env now).2.1
        "gatewayId" (PyVal.str (gatewayIdOf g))) "source" (PyVal.str "rf")) =
      Except.error "KeyError: fromId" ∧
    (mlookup (onReceive pI root st g mq p env now).1.nodeCache (pyStr v)).isSome ∧
    ((mlookup st.nodeCache (pyStr v)).isNone = true →
      (pyStr v, 0) ∈ (onReceive pI root st g mq p env now).1.tracerouteQueue) := by
  have henvid : mlookup (mset (mset (updateCacheFromPacket pI st p env now).2.1
      "gatewayId" (PyVal.str (gatewayIdOf g))) "source" (PyVal.str "rf"))
      "fromId" = none := by
    rw [mlookup_mset_ne _ _ _ _ (by decide), mlookup_mset_ne _ _ _ _ (by decide),
      updateCache_fromId_preserved, hfromid]
  have htopic : buildTopic root (mset (mset (updateCacheFromPacket pI st p env now).2.1
      "gatewayId" (PyVal.str (gatewayIdOf g))) "source" (PyVal.str "rf")) =
      Except.error "KeyError: fromId" := by
    unfold buildTopic
    rw [henvid]
  have hpub : publishDictToMqtt root mq
      (mset (mset (updateCacheFromPacket pI st p env now).2.1
        "gatewayId" (PyVal.str (gatewayIdOf g))) "source" (PyVal.str "rf")) = none := by
    unfold publishDictToMqtt
    rw [htopic]
    by_cases hmq : (!mq.mqttConnected && !mq.reconnectOk) = true
    · rw [if_pos hmq]
    · rw [if_neg hmq]
  have hfacts := updateCache_some_facts pI st p env now v d hfrom hnull hdec
  have houtcome := hfacts.1
  cases p with
  | nil => exact absurd hne (by simp)
  | cons hd tl =>
    have hon : onReceive pI root st g mq (hd :: tl) env now =
        ((updateCacheFromPacket pI st (hd :: tl) env now).1,
          publishDictToMqtt root mq
            (mset (mset (updateCacheFromPacket pI st (hd :: tl) env now).2.1
              "gatewayId" (PyVal.str (gatewayIdOf g))) "source" (PyVal.str "rf"))) := by
      have hie : (hd :: tl).isEmpty = false := rfl
      simp only [onReceive, hie, Bool.false_eq_true, if_false, houtcome]
    rw [hon]
    exact ⟨hpub, htopic, hfacts.2.1, hfacts.2.2⟩

/-- Witness for `onreceive_missing_fromid`: packet `{"from": 9}` with no
`fromId` and no `decoded`, handled with the interface down and MQTT up. -/
theorem onreceive_missing_fromid_witness :
    (onReceive 10800 "t" ⟨[], [], []⟩ ⟨false, none, none⟩ ⟨true, true⟩
        [("from", PyVal.num 9)] ⟨none, none, none, none⟩ 0).2 = none ∧
    buildTopic "t" (mset (mset (updateCacheFromPacket 10800 ⟨[], [], []⟩
        [("from", PyVal.num 9)] ⟨none, none, none, none⟩ 0).2.1
        "gatewayId" (PyVal.str (gatewayIdOf ⟨false, none, none⟩)))
        "source" (PyVal.str "rf")) = Except.error "KeyError: fromId" ∧
    (mlookup (onReceive 10800 "t" ⟨[], [], []⟩ ⟨false, none, none⟩ ⟨true, true⟩
        [("from", PyVal.num 9)] ⟨none, none, none, none⟩
        0).1.nodeCache (pyStr (PyVal.num 9))).isSome ∧
    ((mlookup (ProducerState.mk [] [] []).nodeCache (pyStr (PyVal.num 9))).isNone = true →
      (pyStr (PyVal.num 9), 0) ∈ (onReceive 10800 "t" ⟨[], [], []⟩ ⟨false, none, none⟩
        ⟨true, true⟩ [("from", PyVal.num 9)] ⟨none, none, none, none⟩
        0).1.tracerouteQueue) :=
  onreceive_missing_fromid 10800 "t" ⟨[], [], []⟩ ⟨false, none, none⟩ ⟨true, true⟩
    [("from", PyVal.num 9)] ⟨none, none, none, none⟩ 0 (PyVal.num 9) [] rfl rfl rfl
    rfl rfl

/-- C10 counterexample: on `{"from": 7, "decoded": "junk"}` (no `fromId`)
`decoded.get("portnum")` raises `AttributeError`, so `onReceive` finishes
with no publish and the cache holds the `setdefault` entry for `"7"`, but
the traceroute queue was NOT updated; and on `{"from": null}` neither
cache nor queue is touched — refuting the claim's assertion that both
"have already been updated from the packet's 'from' field" for every
such packet. -/
theorem onreceive_nondict_decoded_counterexample :
    onReceive 10800 "t" ⟨[], [], []⟩ ⟨false, none, none⟩ ⟨true, true⟩
        [("from", PyVal.num 7), ("decoded", PyVal.str "junk")]
        ⟨none, none, none, none⟩ 0 =
      (⟨[("7", ⟨none, none⟩)], [], []⟩, none) ∧
    onReceive 10800 "t" ⟨[], [], []⟩ ⟨false, none, none⟩ ⟨true, true⟩
        [("from", PyVal.null)] ⟨none, none, none, none⟩ 0 =
      (⟨[], [], []⟩, none) :=
  ⟨rfl, rfl⟩

/-- C7 failing input (after the packet of tests/test_channel_names.py):
on the test's packet `{"from":123,"to":456,"channel":1,"payload":"test"}`
the handler publishes nothing at all (no `fromId`), and on the same packet
with a `fromId` the published envelope adds ONLY `gatewayId` and
`source="rf"` — no `modem_preset` and no `channel_num` field, contrary to
the claim and to the repository's own test expecting `channel_num`. -/
theorem envelope_missing_channel_fields :
    (onReceive 10800 "test" ⟨[], [], []⟩ ⟨true, some "!gw", none⟩ ⟨true, true⟩
        [("from", PyVal.num 123), ("to", PyVal.num 456), ("channel", PyVal.num 1),
         ("payload", PyVal.str "test")] ⟨none, none, none, none⟩ 10000).2 = none ∧
    (onReceive 10800 "test" ⟨[], [], []⟩ ⟨true, some "!gw", none⟩ ⟨true, true⟩
        [("from", PyVal.num 123), ("to", PyVal.num 456), ("channel", PyVal.num 1),
         ("payload", PyVal.str "test"), ("fromId", PyVal.str "!0000007b")]
        ⟨none, none, none, none⟩ 10000).2 =
      some ("test/!0000007b",
        [("from", PyVal.num 123), ("to", PyVal.num 456), ("channel", PyVal.num 1),
         ("payload", PyVal.str "test"), ("fromId", PyVal.str "!0000007b"),
         ("gatewayId", PyVal.str "!gw"), ("source", PyVal.str "rf")]) ∧
    mlookup [("from", PyVal.num 123), ("to", PyVal.num 456), ("channel", PyVal.num 1),
         ("payload", PyVal.str "test"), ("fromId", PyVal.str "!0000007b"),
         ("gatewayId", PyVal.str "!gw"), ("source", PyVal.str "rf")]
      "channel_num" = none ∧
    mlookup [("from", PyVal.num 123), ("to", PyVal.num 456), ("channel", PyVal.num 1),
         ("payload", PyVal.str "test"), ("fromId", PyVal.str "!0000007b"),
         ("gatewayId", PyVal.str "!gw"), ("source", PyVal.str "rf")]
      "modem_preset" = none :=
  ⟨rfl, rfl, rfl, rfl⟩

/-! ## ConnectionManager.reconnect (utils/connection_manager.py)

The `while` loop of `_reconnect_internal`, with oracles for the outcome
of each `connect()` call and for the three points at which the loop
observes the stop event (`stop_event.is_set()` in the loop condition,
after a failed connect, and `stop_event.wait(timeout=delay)` during the
backoff sleep). `waits` records the full delays actually slept through;
an interrupted wait aborts the loop and is not recorded. -/

structure CMConfig where
  reconnectAttempts : Nat
  reconnectDelay : Nat
deriving DecidableEq

structure ReconnectRun where
  success : Bool
  attemptsMade : Nat
  waits : List Nat
deriving DecidableEq

def reconnectFrom (c : CMConfig) (ok stopTop stopAfter stopWait : Nat → Bool)
    (attempts : Nat) : ReconnectRun :=
  if h : attempts < c.reconnectAttempts then
    if stopTop (attempts + 1) then ⟨false, attempts, []⟩
    else if ok (attempts + 1) then ⟨true, attempts + 1, []⟩
    else if stopAfter (attempts + 1) then ⟨false, attempts + 1, []⟩
    else if stopWait (attempts + 1) then ⟨false, attempts + 1, []⟩
    else
      let d := c.reconnectDelay * 2 ^ (attempts + 1 - 1)
      let r := reconnectFrom c ok stopTop stopAfter stopWait (attempts + 1)
      ⟨r.success, r.attemptsMade, d :: r.waits⟩
  else ⟨false, attempts, []⟩
termination_by c.reconnectAttempts - attempts
decreasing_by omega

/-- `reconnect`: single-flight — when a reconnection is already in
progress return `False` at once, otherwise run the backoff loop from
attempt count 0. -/
def reconnect (c : CMConfig) (reconnecting : Bool)
    (ok stopTop stopAfter stopWait : Nat → Bool) : ReconnectRun :=
  if reconnecting then ⟨false, 0, []⟩
  else reconnectFrom c ok stopTop stopAfter stopWait 0

/-- The all-clear stop oracle: the stop event is never set. -/
def noStop : Nat → Bool := fun _ => false

lemma reconnectFrom_attempts_le (c : CMConfig)
    (ok stopTop stopAfter stopWait : Nat → Bool) :
    ∀ n k, c.reconnectAttempts - k ≤ n → k ≤ c.reconnectAttempts →
      (reconnectFrom c ok stopTop stopAfter stopWait k).attemptsMade ≤
        c.reconnectAttempts := by
  intro n
  induction n with
  | zero =>
    intro k hn hk
    rw [reconnectFrom, dif_neg (by omega)]
    exact hk
  | succ n ih =>
    intro k hn hk
    rw [reconnectFrom]
    by_cases hlt : k < c.reconnectAttempts
    · rw [dif_pos hlt]
      by_cases h1 : stopTop (k + 1) = true
      · rw [if_pos h1]
        exact hk
      · rw [if_neg h1]
        by_cases h2 : ok (k + 1) = true
        · rw [if_pos h2]
          exact hlt
        · rw [if_neg h2]
          by_cases h3 : stopAfter (k + 1) = true
          · rw [if_pos h3]
            exact hlt
          · rw [if_neg h3]
            by_cases h4 : stopWait (k + 1) = true
            · rw [if_pos h4]
              exact hlt
            · rw [if_neg h4]
              exact ih (k + 1) (by omega) (by omega)
    · rw [dif_neg hlt]
      exact hk

lemma reconnectFrom_success_iff (c : CMConfig) (ok : Nat → Bool) :
    ∀ n k, c.reconnectAttempts - k ≤ n →
      ((reconnectFrom c ok noStop noStop noStop k).success = true ↔
        ∃ a, k < a ∧ a ≤ c.reconnectAttempts ∧ ok a = true) := by
  intro n
  induction n with
  | zero =>
    intro k hn
    rw [reconnectFrom, dif_neg (by omega)]
    simp only [Bool.false_eq_true, false_iff, not_exists]
    intro a ⟨h1, h2, _⟩
    omega
  | succ n ih =>
    intro k hn
    rw [reconnectFrom]
    by_cases hlt : k < c.reconnectAttempts
    · rw [dif_pos hlt]
      simp only [noStop, Bool.false_eq_true, if_false]
      by_cases h2 : ok (k + 1) = true
      · rw [if_pos h2]
        simp only [true_iff]
        exact ⟨k + 1, by omega, by omega, h2⟩
      · rw [if_neg h2]
        show (reconnectFrom c ok noStop noStop noStop (k + 1)).success = true ↔ _
        rw [ih (k + 1) (by omega)]
        constructor
        · rintro ⟨a, h1', h2', h3'⟩
          exact ⟨a, by omega, h2', h3'⟩
        · rintro ⟨a, h1', h2', h3'⟩
          refine ⟨a, ?_, h2', h3'⟩
          rcases Nat.lt_or_ge k a with hka | hka
          · rcases Nat.eq_or_lt_of_le hka with heq | hgt
            · exfalso
              rw [← heq] at h3'
              exact absurd h3' (by simp [h2])
            · omega
          · omega
    · rw [dif_neg hlt]
      simp only [Bool.false_eq_true, false_iff, not_exists]
      intro a ⟨h1, h2, _⟩
      omega

lemma reconnectFrom_waits (c : CMConfig) (ok : Nat → Bool) :
    ∀ n k, c.reconnectAttempts - k ≤ n →
      ∀ i, i < (reconnectFrom c ok noStop noStop noStop k).waits.length →
        (reconnectFrom c ok noStop noStop noStop k).waits.getD i 0 =
          c.reconnectDelay * 2 ^ (k + i) := by
  intro n
  induction n with
  | zero =>
    intro k hn i hi
    rw [reconnectFrom, dif_neg (by omega)] at hi
    exact absurd hi (by simp)
  | succ n ih =>
    intro k hn i hi
    rw [reconnectFrom] at hi ⊢
    by_cases hlt : k < c.reconnectAttempts
    · rw [dif_pos hlt] at hi ⊢
      simp only [noStop, Bool.false_eq_true, if_false] at hi ⊢
      by_cases h2 : ok (k + 1) = true
      · rw [if_pos h2] at hi
        exact absurd hi (by simp)
      · rw [if_neg h2] at hi ⊢
        cases i with
        | zero => simp
        | succ i =>
          have hi' : i <
              (reconnectFrom c ok noStop noStop noStop (k + 1)).waits.length := by
            simpa using hi
          have hrec := ih (k + 1) (by omega) i hi'
          simp only [List.getD_cons_succ]
          rw [show k + (i + 1) = k + 1 + i from by omega]
          exact hrec
    · rw [dif_neg hlt] at hi
      exact absurd hi (by simp)

/-- C8 (amended): with no shutdown in progress, `reconnect()` makes at
most `reconnect_attempts` connection attempts; the wait slept after the
n-th failed attempt (and so between attempts n and n+1) is
`reconnect_delay × 2^(n−1)` seconds with NO upper cap; a stop event
observed during the wait aborts the loop at once; and the call returns
true iff one of the first `reconnect_attempts` `connect()` calls
succeeds. -/
theorem reconnect_backoff (c : CMConfig) (ok : Nat → Bool) :
    (reconnect c false ok noStop noStop noStop).attemptsMade ≤ c.reconnectAttempts ∧
    ((reconnect c false ok noStop noStop noStop).success = true ↔
      ∃ a, 1 ≤ a ∧ a ≤ c.reconnectAttempts ∧ ok a = true) ∧
    (∀ i, i < (reconnect c false ok noStop noStop noStop).waits.length →
      (reconnect c false ok noStop noStop noStop).waits.getD i 0 =
        c.reconnectDelay * 2 ^ i) ∧
    (∀ stopTop stopAfter, 0 < c.reconnectAttempts → stopTop 1 = false →
      ok 1 = false → stopAfter 1 = false →
      reconnectFrom c ok stopTop stopAfter (fun _ => true) 0 =
        ⟨false, 1, []⟩) := by
  have hr : reconnect c false ok noStop noStop noStop =
      reconnectFrom c ok noStop noStop noStop 0 := by
    unfold reconnect
    rw [if_neg (by simp)]
  refine ⟨?_, ?_, ?_, ?_⟩
  · rw [hr]
    exact reconnectFrom_attempts_le c ok noStop noStop noStop
      c.reconnectAttempts 0 (by omega) (by omega)
  · rw [hr]
    have := reconnectFrom_success_iff c ok c.reconnectAttempts 0 (by omega)
    rw [this]
    constructor
    · rintro ⟨a, h1, h2, h3⟩
      exact ⟨a, h1, h2, h3⟩
    · rintro ⟨a, h1, h2, h3⟩
      exact ⟨a, h1, h2, h3⟩
  · intro i hi
    rw [hr] at hi ⊢
    have hw := reconnectFrom_waits c ok c.reconnectAttempts 0 (by omega) i hi
    simpa using hw
  · intro stopTop stopAfter hpos h1 h2 h3
    rw [reconnectFrom, dif_pos hpos, if_neg (by simp [h1]), if_neg (by simp [h2]),
      if_neg (by simp [h3]), if_pos rfl]

/-- Witness for `reconnect_backoff`: three attempts, base delay 5 s,
where only the third `connect()` succeeds. -/
theorem reconnect_backoff_witness :
    (reconnect ⟨3, 5⟩ false (fun a => a == 3) noStop noStop noStop).attemptsMade ≤ 3 ∧
    ((reconnect ⟨3, 5⟩ false (fun a => a == 3) noStop noStop noStop).success = true ↔
      ∃ a, 1 ≤ a ∧ a ≤ 3 ∧ (a == 3) = true) := by
  have h := reconnect_backoff ⟨3, 5⟩ (fun a => a == 3)
  exact ⟨h.1, h.2.1⟩

/-- C8 counterexample: with `reconnect_attempts = 6` and the default base
delay `reconnect_delay = 5`, every wait is `5 × 2^(n−1)` with no cap: the
delay slept between attempts 5 and 6 is 80 s > 60 s, so the claimed 60 s
cap does not exist in the code. -/
theorem reconnect_no_cap_counterexample :
    (reconnect ⟨6, 5⟩ false (fun _ => false) noStop noStop noStop).waits =
      [5, 10, 20, 40, 80, 160] ∧ ¬ (80 : Nat) ≤ 60 := by
  constructor
  · show (reconnectFrom ⟨6, 5⟩ (fun _ => false) noStop noStop noStop 0).waits =
      [5, 10, 20, 40, 80, 160]
    rw [reconnectFrom, reconnectFrom, reconnectFrom, reconnectFrom, reconnectFrom,
      reconnectFrom, reconnectFrom]
    norm_num [noStop]
  · omega

end NhmeshProducer
